import Mathlib

/-!
Shallow embedding of the Healthy Eating Helper analysis pipeline.

Server side (FastAPI, `api/main.py` as given in the design document):
`labels_map`, `lookup_nutrition`, `health_score`, and the `/analyze`
handler body (`analyze`), with the prediction list as input.

Client side (`web/app/components/ResultCard.tsx` and `MacroBars.tsx`):
`updateServing`, `adjustedNutrition`, `adjustedHealthScore`, the rendered
tips, and the macro percentage computation.

Numbers are modelled as rationals (the source uses JS/Python floats on
decimal literals); `Math.round` is round-half-up (`jsRound`), Python 3
`round` is round-half-to-even (`pyRound`).
-/

/-- Lowercase a string character by character (models `str.lower()` /
`String.prototype.toLowerCase` on the ASCII labels used here). -/
def lowerStr (s : String) : String := ⟨s.data.map Char.toLower⟩

/-- Decide whether the first character list is a prefix of the second. -/
def isPrefList : List Char → List Char → Bool
  | [], _ => true
  | _ :: _, [] => false
  | a :: as, b :: bs => a == b && isPrefList as bs

/-- Decide whether the first character list occurs contiguously in the second. -/
def hasSubList (n : List Char) : List Char → Bool
  | [] => isPrefList n []
  | b :: t => isPrefList n (b :: t) || hasSubList n t

/-- Substring test on strings (models Python `in` / JS `String.includes`). -/
def hasSub (needle hay : String) : Bool := hasSubList needle.data hay.data

/-- JS `Math.round`: round half away from zero upward, i.e. `⌊x + 1/2⌋`. -/
def jsRound (q : ℚ) : ℤ := ⌊q + 1/2⌋

/-- Python 3 `round`: round to nearest, ties to the even integer. -/
def pyRound (q : ℚ) : ℤ :=
  if q - ⌊q⌋ < 1/2 then ⌊q⌋
  else if (1:ℚ)/2 < q - ⌊q⌋ then ⌊q⌋ + 1
  else if ⌊q⌋ % 2 = 0 then ⌊q⌋ else ⌊q⌋ + 1

/-- Python `round(x, 3)` on the confidence values. -/
def round3 (q : ℚ) : ℚ := (pyRound (q * 1000) : ℚ) / 1000

/-- Per-serving nutrition record; the seven keys of the server `totals`
dict and of the TS `NutritionInfo` interface (the TS optional fields are
always populated by this server, so they are modelled as total). -/
structure NutritionInfo where
  calories : ℚ
  protein_g : ℚ
  carbs_g : ℚ
  fat_g : ℚ
  fiber_g : ℚ
  sat_fat_g : ℚ
  added_sugar_g : ℚ
deriving DecidableEq

/-- The all-zero totals dict the server loop starts from. -/
def zeroTotals : NutritionInfo := ⟨0, 0, 0, 0, 0, 0, 0⟩

/-- Pointwise addition, modelling `for k in totals: totals[k] += nut.get(k, 0)`. -/
def addTotals (t n : NutritionInfo) : NutritionInfo :=
  ⟨t.calories + n.calories, t.protein_g + n.protein_g, t.carbs_g + n.carbs_g,
   t.fat_g + n.fat_g, t.fiber_g + n.fiber_g, t.sat_fat_g + n.sat_fat_g,
   t.added_sugar_g + n.added_sugar_g⟩

/-- Server synonym map: `labels_map = {"fries": "french fries", "cola": "soda"}`. -/
def labels_map : List (String × String) := [("fries", "french fries"), ("cola", "soda")]

/-- Python `labels_map.get(name, name)`. -/
def synonymSubst (name : String) : String :=
  match labels_map.find? (fun e => e.1 == name) with
  | some e => e.2
  | none => name

/-- The in-memory nutrition reference table of `lookup_nutrition`. -/
def nutritionTable : List (String × NutritionInfo) :=
  [("pizza", ⟨285, 12, 36, 10, 2, 4, 2⟩),
   ("salad", ⟨150, 4, 10, 10, 3, 2, 1⟩),
   ("soda", ⟨150, 0, 39, 0, 0, 0, 39⟩),
   ("french fries", ⟨365, 4, 48, 17, 4, 3, 0⟩)]

/-- The generic fallback profile returned for unknown canonical names. -/
def genericProfile : NutritionInfo := ⟨250, 6, 30, 9, 2, 2, 2⟩

/-- Server `lookup_nutrition`: synonym substitution, lowercase, table
lookup, generic fallback. -/
def lookup_nutrition (name : String) : NutritionInfo :=
  let canonical := lowerStr (synonymSubst name)
  match nutritionTable.find? (fun e => e.1 == canonical) with
  | some e => e.2
  | none => genericProfile

/-- One classifier prediction `{label, score}`. -/
structure Prediction where
  label : String
  score : ℚ
deriving DecidableEq

/-- The multi-label filter of `analyze`:
`kept = [p for p in preds if p["score"] >= max(0.15, p_main*0.6)][:3]`
with `p_main = preds[0]["score"]`. -/
def keptList (preds : List Prediction) : List Prediction :=
  match preds with
  | [] => []
  | pmain :: _ =>
    (preds.filter (fun p => decide (max 0.15 (pmain.score * 0.6) ≤ p.score))).take 3

/-- Server `health_score(total)`:
`score = 100 - 0.02*max(0, cal-500) - 1.2*sat - 0.2*sug + 0.8*fib + 0.5*pro`
then `max(0, min(100, int(round(score))))`. -/
def health_score (total : NutritionInfo) : ℤ :=
  let score : ℚ := 100 - 0.02 * max 0 (total.calories - 500) - 1.2 * total.sat_fat_g
      - 0.2 * total.added_sugar_g + 0.8 * total.fiber_g + 0.5 * total.protein_g
  max 0 (min 100 (pyRound score))

/-- The three rule-based tips appended by `analyze`, in source order. -/
def genTips (totals : NutritionInfo) : List String :=
  (if totals.added_sugar_g ≥ 20 then ["Swap sugary drinks for water or unsweetened tea."] else [])
  ++ (if totals.fiber_g < 5 then ["Add veggies or whole grains to increase fiber."] else [])
  ++ (if totals.protein_g < 15 then ["Add a lean protein for satiety."] else [])

/-- One item of the `/analyze` response, also the TS `FoodItem` interface. -/
structure FoodItem where
  label : String
  confidence : ℚ
  servings : ℚ
  nutrition : NutritionInfo
deriving DecidableEq

/-- The `/analyze` response body, also the TS `AnalysisResult` interface. -/
structure AnalysisResult where
  total_calories : ℚ
  health_score : ℤ
  items : List FoodItem
  tips : List String
deriving DecidableEq

/-- Failure of the analysis stage. The server code indexes `preds[0]`,
which fails on an empty prediction list; the failure is modelled as the
spec `NoDetectionError`. -/
inductive AnalysisError where
  | NoDetectionError
deriving DecidableEq

/-- Body of the `/analyze` handler from the prediction list onward:
filter, lowercase labels, nutrition lookup, totals accumulation, health
score, tips. The server performs no persistence. -/
def analyze : List Prediction → Except AnalysisError AnalysisResult
  | [] => .error .NoDetectionError
  | p :: rest =>
    let kept := keptList (p :: rest)
    let items := kept.map (fun q =>
      let name := lowerStr q.label
      (⟨name, round3 q.score, 1, lookup_nutrition name⟩ : FoodItem))
    let totals := (items.map FoodItem.nutrition).foldl addTotals zeroTotals
    .ok ⟨totals.calories, health_score totals, items, genTips totals⟩

/-- Client serving-adjustment state: `Record<number, number>` keyed by item
index (`servingAdjustments`). -/
def ServingMap : Type := Nat → Option ℚ

/-- The initial `useState` value: each index maps to the original per-item
`servings` from the API response. -/
def initialAdjustments (items : List FoodItem) : ServingMap :=
  fun i => (items.get? i).map FoodItem.servings

/-- TS `servingAdjustments[index] || item.servings` (JS `||`: both a missing
entry and a stored `0` fall back to the original servings of the item). -/
def effectiveServing (adj : ServingMap) (item : FoodItem) (i : Nat) : ℚ :=
  match adj i with
  | some v => if v = 0 then item.servings else v
  | none => item.servings

/-- TS `adjustedNutrition`: reduce over `result.items` with the per-index
serving multipliers, summing every field scaled by the multiplier. -/
def adjustedNutrition (items : List FoodItem) (adj : ServingMap) : NutritionInfo :=
  items.enum.foldl
    (fun total ii =>
      let m := effectiveServing adj ii.2 ii.1
      (⟨total.calories + ii.2.nutrition.calories * m,
        total.protein_g + ii.2.nutrition.protein_g * m,
        total.carbs_g + ii.2.nutrition.carbs_g * m,
        total.fat_g + ii.2.nutrition.fat_g * m,
        total.fiber_g + ii.2.nutrition.fiber_g * m,
        total.sat_fat_g + ii.2.nutrition.sat_fat_g * m,
        total.added_sugar_g + ii.2.nutrition.added_sugar_g * m⟩ : NutritionInfo))
    zeroTotals

/-- The caution-food else-if chain of TS `adjustedHealthScore`, on the
lowercased label. -/
def cautionPenalty (label : String) : ℚ :=
  if hasSub "soda" (lowerStr label) || hasSub "cola" (lowerStr label) then 10
  else if hasSub "fries" (lowerStr label) || hasSub "chips" (lowerStr label) then 8
  else if hasSub "burger" (lowerStr label) then 5
  else if hasSub "pizza" (lowerStr label) then 3
  else if hasSub "dessert" (lowerStr label) then 7
  else 0

/-- TS `adjustedHealthScore`: base formula on the adjusted nutrition, then
per-item caution penalties scaled by the serving multiplier, then
`Math.max(0, Math.min(100, Math.round(score)))`. -/
def adjustedHealthScore (items : List FoodItem) (adj : ServingMap) : ℤ :=
  let n := adjustedNutrition items adj
  let base : ℚ := 100 - 0.02 * max 0 (n.calories - 500) - 1.2 * n.sat_fat_g
      - 0.2 * n.added_sugar_g + 0.8 * n.fiber_g + 0.5 * n.protein_g
  let withPen := items.enum.foldl
      (fun s ii => s - cautionPenalty ii.2.label * effectiveServing adj ii.2 ii.1) base
  max 0 (min 100 (jsRound withPen))

/-- TS `updateServing` clamp: `Math.max(0.25, Math.min(5, newServing))`. -/
def clampServ (v : ℚ) : ℚ := max 0.25 (min 5 v)

/-- TS `updateServing`: clamp the value and write it at the index,
leaving every other index unchanged (`{...prev, [itemIndex]: clamped}`). -/
def updateServing (adj : ServingMap) (i : Nat) (v : ℚ) : ServingMap :=
  fun j => if j = i then some (clampServ v) else adj j

/-- Apply a sequence of `(index, value)` serving edits in order. -/
def applyEdits (adj : ServingMap) (es : List (Nat × ℚ)) : ServingMap :=
  es.foldl (fun m e => updateServing m e.1 e.2) adj

/-- What `ResultCard` derives and renders for a given adjustment state. -/
structure ClientView where
  nutrition : NutritionInfo
  score : ℤ
  tips : List String
deriving DecidableEq

/-- The derived state of `ResultCard`: recomputed nutrition and health
score, but the tips rendered are the original `result.tips` from the API
response (the component never recomputes them). -/
def clientView (result : AnalysisResult) (adj : ServingMap) : ClientView :=
  ⟨adjustedNutrition result.items adj, adjustedHealthScore result.items adj, result.tips⟩

/-- The protein/carbs/fat percentages of `MacroBars`: the calories of each macro
over `totalMacroCals`, guarded to `0` when the total is not positive. -/
def barPercents (n : NutritionInfo) : ℚ × ℚ × ℚ :=
  let proteinCals := n.protein_g * 4
  let carbsCals := n.carbs_g * 4
  let fatCals := n.fat_g * 9
  let totalMacroCals := proteinCals + carbsCals + fatCals
  (if totalMacroCals > 0 then proteinCals / totalMacroCals * 100 else 0,
   if totalMacroCals > 0 then carbsCals / totalMacroCals * 100 else 0,
   if totalMacroCals > 0 then fatCals / totalMacroCals * 100 else 0)

/-- The spec caution list in priority order: substrings and penalty
magnitudes (spec 4.4). -/
def cautionTable : List (List String × ℚ) :=
  [(["soda", "cola"], 10), (["fries", "chips"], 8), (["burger"], 5),
   (["pizza"], 3), (["dessert"], 7)]

/-- Spec-worded penalty: the single highest-priority case-insensitive
substring match in `cautionTable`, or `0` when none matches. -/
def specCautionPenalty (label : String) : ℚ :=
  match cautionTable.find? (fun e => e.1.any (fun s => hasSub s (lowerStr label))) with
  | some e => e.2
  | none => 0

/-- Spec-worded health score (spec 4.4): base formula, minus the sum of the
per-item scaled caution penalties, then clamp to `[0,100]` and finally
round half-up. Stated for comparison with `adjustedHealthScore`. -/
def specHealthScore (items : List FoodItem) (adj : ServingMap) : ℤ :=
  let n := adjustedNutrition items adj
  let base : ℚ := 100 - 0.02 * max 0 (n.calories - 500) - 1.2 * n.sat_fat_g
      - 0.2 * n.added_sugar_g + 0.8 * n.fiber_g + 0.5 * n.protein_g
  let penalties := (items.enum.map
      (fun ii => specCautionPenalty ii.2.label * effectiveServing adj ii.2 ii.1)).sum
  jsRound (max 0 (min 100 (base - penalties)))

/-- Data-model aggregation (spec 4.3): items paired with their serving
multipliers, each field summed as `nutrition.field * servingMultiplier`. -/
def aggregateOf (l : List (FoodItem × ℚ)) : NutritionInfo :=
  l.foldl
    (fun total p =>
      (⟨total.calories + p.1.nutrition.calories * p.2,
        total.protein_g + p.1.nutrition.protein_g * p.2,
        total.carbs_g + p.1.nutrition.carbs_g * p.2,
        total.fat_g + p.1.nutrition.fat_g * p.2,
        total.fiber_g + p.1.nutrition.fiber_g * p.2,
        total.sat_fat_g + p.1.nutrition.sat_fat_g * p.2,
        total.added_sugar_g + p.1.nutrition.added_sugar_g * p.2⟩ : NutritionInfo))
    zeroTotals

/-- The pizza and salad response items of the worked scenario, with the
server reply `total_calories=435, health_score=100, tips=[]` (spec 8). -/
def staleResult : AnalysisResult :=
  ⟨435, 100,
   [⟨"pizza", 0.91, 1, ⟨285, 12, 36, 10, 2, 4, 2⟩⟩,
    ⟨"salad", 0.55, 1, ⟨150, 4, 10, 10, 3, 2, 1⟩⟩],
   []⟩

/-- Folding subtraction of a function over a list subtracts the sum of its
values. -/
theorem foldl_sub_eq_sub_sum {α : Type} (g : α → ℚ) :
    ∀ (l : List α) (b : ℚ), l.foldl (fun s x => s - g x) b = b - (l.map g).sum
  | [], b => by simp
  | a :: t, b => by
    simp only [List.foldl_cons, List.map_cons, List.sum_cons,
      foldl_sub_eq_sub_sum g t (b - g a)]
    ring

/-- Clamping to `[0,100]` commutes with rounding half-up across the clamp. -/
theorem clamp_jsRound_comm (x : ℚ) :
    max 0 (min 100 (jsRound x)) = jsRound (max 0 (min 100 x)) := by
  unfold jsRound
  rcases le_total x 0 with h0 | h0
  · rw [min_eq_right (le_trans h0 (by norm_num)), max_eq_left h0]
    have hf : ⌊x + 1/2⌋ ≤ 0 := by
      have h : x + 1/2 ≤ (1:ℚ)/2 := by linarith
      calc ⌊x + 1/2⌋ ≤ ⌊(1:ℚ)/2⌋ := Int.floor_le_floor h
        _ = 0 := by norm_num
    rw [min_eq_right (le_trans hf (by norm_num)), max_eq_left hf]
    norm_num
  · rcases le_total x 100 with h1 | h1
    · rw [min_eq_right h1, max_eq_right h0]
      have hlo : (0:ℤ) ≤ ⌊x + 1/2⌋ := by
        rw [Int.le_floor]; push_cast; linarith
      have hhi : ⌊x + 1/2⌋ ≤ 100 := by
        have h : x + 1/2 ≤ (100:ℚ) + 1/2 := by linarith
        calc ⌊x + 1/2⌋ ≤ ⌊(100:ℚ) + 1/2⌋ := Int.floor_le_floor h
          _ = 100 := by norm_num
      rw [min_eq_right hhi, max_eq_right hlo]
    · rw [min_eq_left h1, max_eq_right (by norm_num : (0:ℚ) ≤ 100)]
      have hge : (100:ℤ) ≤ ⌊x + 1/2⌋ := by
        rw [Int.le_floor]; push_cast; linarith
      rw [min_eq_left hge, max_eq_right (by norm_num : (0:ℤ) ≤ 100)]
      norm_num

/-- The else-if caution chain of the component equals the spec
highest-priority-match lookup over the caution table. -/
theorem specCautionPenalty_eq (label : String) :
    specCautionPenalty label = cautionPenalty label := by
  cases h1 : hasSub "soda" (lowerStr label) <;>
  cases h2 : hasSub "cola" (lowerStr label) <;>
  cases h3 : hasSub "fries" (lowerStr label) <;>
  cases h4 : hasSub "chips" (lowerStr label) <;>
  cases h5 : hasSub "burger" (lowerStr label) <;>
  cases h6 : hasSub "pizza" (lowerStr label) <;>
  cases h7 : hasSub "dessert" (lowerStr label) <;>
  simp [specCautionPenalty, cautionPenalty, cautionTable, List.find?,
    h1, h2, h3, h4, h5, h6, h7]

/-- C1. The client health score is exactly the spec formula: base score,
minus one highest-priority caution penalty per item scaled by its serving
multiplier, with clamping to `[0,100]` and half-up rounding applied last;
the result is always an integer in `[0,100]`. -/
theorem claim1_health_score_formula_and_range (items : List FoodItem) (adj : ServingMap) :
    adjustedHealthScore items adj = specHealthScore items adj
    ∧ 0 ≤ adjustedHealthScore items adj ∧ adjustedHealthScore items adj ≤ 100 := by
  refine ⟨?_, ?_, ?_⟩
  · simp only [adjustedHealthScore, specHealthScore]
    rw [foldl_sub_eq_sub_sum, clamp_jsRound_comm]
    have hmap : (items.enum.map
          (fun ii => cautionPenalty ii.2.label * effectiveServing adj ii.2 ii.1))
        = items.enum.map
          (fun ii => specCautionPenalty ii.2.label * effectiveServing adj ii.2 ii.1) :=
      List.map_congr_left (fun ii _ => by rw [specCautionPenalty_eq])
    rw [hmap]
  · exact le_max_left _ _
  · exact max_le (by norm_num) (min_le_left _ _)

/-- C2 counterexample. For the singleton prediction list with confidence
0.1 (below the 0.15 floor), the kept list is empty, so the claim that the
kept list always contains the top prediction with `1 ≤ kept.length` fails. -/
theorem claim2_counterexample_low_confidence :
    keptList [⟨"mystery", 0.1⟩] = []
    ∧ ¬ (1 ≤ (keptList [⟨"mystery", 0.1⟩]).length) := by
  have h : keptList [⟨"mystery", 0.1⟩] = [] := by
    simp only [keptList, List.filter, decide_eq_true_eq]
    norm_num
  exact ⟨h, by rw [h]; simp⟩

/-- C2 amended. For every non-empty prediction list whose top confidence is
at least 0.15, the kept list is the confidence-filtered list in original
order truncated to 3, it starts with the top prediction, and
`1 ≤ kept.length ≤ 3`; without that premise the kept list can be empty. -/
theorem claim2_label_filter_amended (p : Prediction) (rest : List Prediction)
    (h : (0.15:ℚ) ≤ p.score) :
    keptList (p :: rest)
      = ((p :: rest).filter (fun q => decide (max 0.15 (p.score * 0.6) ≤ q.score))).take 3
    ∧ (keptList (p :: rest)).head? = some p
    ∧ 1 ≤ (keptList (p :: rest)).length ∧ (keptList (p :: rest)).length ≤ 3 := by
  have hp : max (0.15:ℚ) (p.score * 0.6) ≤ p.score := by
    apply max_le h
    nlinarith
  have hfil : (p :: rest).filter (fun q => decide (max 0.15 (p.score * 0.6) ≤ q.score))
      = p :: rest.filter (fun q => decide (max 0.15 (p.score * 0.6) ≤ q.score)) :=
    List.filter_cons_of_pos (decide_eq_true hp)
  have hk : keptList (p :: rest)
      = (p :: rest.filter (fun q => decide (max 0.15 (p.score * 0.6) ≤ q.score))).take 3 := by
    simp only [keptList]
    rw [hfil]
  refine ⟨by simp only [keptList], ?_, ?_, ?_⟩
  · rw [hk]
    rfl
  · rw [hk]
    simp
  · simp only [keptList, List.length_take]
    exact min_le_left _ _

/-- C2 witness. The amended filter theorem at the worked pizza/salad/soda
scenario. -/
theorem claim2_label_filter_witness :
    (0.15:ℚ) ≤ 0.91
    ∧ ((keptList [⟨"pizza", 0.91⟩, ⟨"salad", 0.55⟩, ⟨"soda", 0.2⟩]).head?
        = some ⟨"pizza", 0.91⟩
      ∧ 1 ≤ (keptList [⟨"pizza", 0.91⟩, ⟨"salad", 0.55⟩, ⟨"soda", 0.2⟩]).length
      ∧ (keptList [⟨"pizza", 0.91⟩, ⟨"salad", 0.55⟩, ⟨"soda", 0.2⟩]).length ≤ 3) :=
  ⟨by norm_num,
   (claim2_label_filter_amended ⟨"pizza", 0.91⟩ [⟨"salad", 0.55⟩, ⟨"soda", 0.2⟩]
      (by exact (by norm_num : (0.15:ℚ) ≤ 0.91))).2⟩

/-- C3. An empty prediction list fails with `NoDetectionError` (and the
handler performs no persistence at all); every non-empty prediction list
produces a successful response, never that error. -/
theorem claim3_empty_predictions_error :
    analyze [] = .error .NoDetectionError
    ∧ ∀ (p : Prediction) (rest : List Prediction), ∃ resp, analyze (p :: rest) = .ok resp :=
  ⟨rfl, fun _ _ => ⟨_, rfl⟩⟩

/-- C4. Canonical resolution is total: it always returns a profile, and for
a label with no synonym substitution and no canonical match in the table it
returns the fixed generic fallback profile instead of failing. -/
theorem claim4_lookup_total_fallback (name : String)
    (h1 : labels_map.find? (fun e => e.1 == name) = none)
    (h2 : nutritionTable.find? (fun e => e.1 == lowerStr name) = none) :
    (∃ pr, lookup_nutrition name = pr) ∧ lookup_nutrition name = genericProfile := by
  have hs : synonymSubst name = name := by
    simp only [synonymSubst, h1]
  refine ⟨⟨_, rfl⟩, ?_⟩
  simp only [lookup_nutrition, hs, h2]

/-- C4 witness. The unknown label sushi resolves to the generic fallback
profile. -/
theorem claim4_lookup_witness :
    labels_map.find? (fun e => e.1 == "sushi") = none
    ∧ nutritionTable.find? (fun e => e.1 == lowerStr "sushi") = none
    ∧ lookup_nutrition "sushi" = genericProfile :=
  ⟨by decide, by decide,
   (claim4_lookup_total_fallback "sushi" (by decide) (by decide)).2⟩

/-- Closed form of `aggregateOf` from any accumulator: every field is the
field of the accumulator plus the sum of the scaled per-item contributions. -/
theorem aggregateOf_go (l : List (FoodItem × ℚ)) :
    ∀ acc : NutritionInfo,
      l.foldl
        (fun total p =>
          (⟨total.calories + p.1.nutrition.calories * p.2,
            total.protein_g + p.1.nutrition.protein_g * p.2,
            total.carbs_g + p.1.nutrition.carbs_g * p.2,
            total.fat_g + p.1.nutrition.fat_g * p.2,
            total.fiber_g + p.1.nutrition.fiber_g * p.2,
            total.sat_fat_g + p.1.nutrition.sat_fat_g * p.2,
            total.added_sugar_g + p.1.nutrition.added_sugar_g * p.2⟩ : NutritionInfo)) acc
      = ⟨acc.calories + (l.map fun p => p.1.nutrition.calories * p.2).sum,
         acc.protein_g + (l.map fun p => p.1.nutrition.protein_g * p.2).sum,
         acc.carbs_g + (l.map fun p => p.1.nutrition.carbs_g * p.2).sum,
         acc.fat_g + (l.map fun p => p.1.nutrition.fat_g * p.2).sum,
         acc.fiber_g + (l.map fun p => p.1.nutrition.fiber_g * p.2).sum,
         acc.sat_fat_g + (l.map fun p => p.1.nutrition.sat_fat_g * p.2).sum,
         acc.added_sugar_g + (l.map fun p => p.1.nutrition.added_sugar_g * p.2).sum⟩ := by
  induction l with
  | nil => intro acc; simp
  | cons a t ih =>
    intro acc
    simp only [List.foldl_cons, List.map_cons, List.sum_cons, ih]
    simp only [NutritionInfo.mk.injEq]
    refine ⟨?_, ?_, ?_, ?_, ?_, ?_, ?_⟩ <;> ring

/-- Per-field closed form of `aggregateOf`. -/
theorem aggregateOf_fields (l : List (FoodItem × ℚ)) :
    aggregateOf l
      = ⟨(l.map fun p => p.1.nutrition.calories * p.2).sum,
         (l.map fun p => p.1.nutrition.protein_g * p.2).sum,
         (l.map fun p => p.1.nutrition.carbs_g * p.2).sum,
         (l.map fun p => p.1.nutrition.fat_g * p.2).sum,
         (l.map fun p => p.1.nutrition.fiber_g * p.2).sum,
         (l.map fun p => p.1.nutrition.sat_fat_g * p.2).sum,
         (l.map fun p => p.1.nutrition.added_sugar_g * p.2).sum⟩ := by
  rw [aggregateOf, aggregateOf_go]
  simp [zeroTotals]

/-- C9. Aggregation is order-independent: permuting the items (with their
serving multipliers) leaves every field of the aggregate unchanged; each
field is the sum of `nutrition.field * servingMultiplier` over the items;
and the `adjustedNutrition` of the component is exactly this aggregation of the
items paired with their effective serving multipliers. -/
theorem claim9_aggregation_perm_invariant (l1 l2 : List (FoodItem × ℚ)) (h : l1.Perm l2) :
    aggregateOf l1 = aggregateOf l2
    ∧ (aggregateOf l1).calories = (l1.map fun p => p.1.nutrition.calories * p.2).sum
    ∧ ∀ (items : List FoodItem) (adj : ServingMap),
        adjustedNutrition items adj
          = aggregateOf (items.enum.map fun ii => (ii.2, effectiveServing adj ii.2 ii.1)) := by
  refine ⟨?_, ?_, ?_⟩
  · rw [aggregateOf_fields l1, aggregateOf_fields l2]
    simp only [NutritionInfo.mk.injEq]
    exact ⟨(h.map _).sum_eq, (h.map _).sum_eq, (h.map _).sum_eq, (h.map _).sum_eq,
      (h.map _).sum_eq, (h.map _).sum_eq, (h.map _).sum_eq⟩
  · rw [aggregateOf_fields l1]
  · intro items adj
    simp only [adjustedNutrition, aggregateOf, List.foldl_map]

/-- C9 witness. Swapping two concrete weighted items preserves the
aggregate. -/
theorem claim9_aggregation_witness :
    aggregateOf [(⟨"pizza", 0.91, 1, ⟨285, 12, 36, 10, 2, 4, 2⟩⟩, 1),
                 (⟨"salad", 0.55, 1, ⟨150, 4, 10, 10, 3, 2, 1⟩⟩, 2)]
      = aggregateOf [(⟨"salad", 0.55, 1, ⟨150, 4, 10, 10, 3, 2, 1⟩⟩, 2),
                     (⟨"pizza", 0.91, 1, ⟨285, 12, 36, 10, 2, 4, 2⟩⟩, 1)] :=
  (claim9_aggregation_perm_invariant _ _ (List.Perm.swap _ _ _)).1

/-- C8. Serving adjustment is idempotent and history-independent: applying
the same edit twice produces the same adjustment state and the same derived
view as applying it once, and any two edit histories that produce the same
multiplier state produce identical derived views. -/
theorem claim8_idempotent_history_independent :
    (∀ (result : AnalysisResult) (adj : ServingMap) (i : Nat) (v : ℚ),
      updateServing (updateServing adj i v) i v = updateServing adj i v
      ∧ clientView result (updateServing (updateServing adj i v) i v)
          = clientView result (updateServing adj i v))
    ∧ ∀ (result : AnalysisResult) (adj : ServingMap) (es1 es2 : List (Nat × ℚ)),
        applyEdits adj es1 = applyEdits adj es2 →
        clientView result (applyEdits adj es1) = clientView result (applyEdits adj es2) := by
  constructor
  · intro result adj i v
    have h : updateServing (updateServing adj i v) i v = updateServing adj i v := by
      funext j
      by_cases hj : j = i <;> simp [updateServing, hj]
    exact ⟨h, by rw [h]⟩
  · intro result adj es1 es2 h
    rw [h]

/-- C8 witness. Two concrete histories writing the same final multiplier
yield the same state and view, and the double edit collapses. -/
theorem claim8_idempotent_witness :
    updateServing (updateServing (fun _ => none) 0 2 : ServingMap) 0 2
        = updateServing (fun _ => none) 0 2
    ∧ applyEdits (fun _ => none) [(0, 7), (0, 2)] = applyEdits (fun _ => none) [(0, 2)]
    ∧ clientView staleResult (applyEdits (fun _ => none) [(0, 7), (0, 2)])
        = clientView staleResult (applyEdits (fun _ => none) [(0, 2)]) := by
  have hmaps : applyEdits (fun _ => none) [(0, 7), (0, 2)]
      = applyEdits (fun _ => none) [(0, 2)] := by
    funext j
    by_cases hj : j = 0 <;> simp [applyEdits, updateServing, hj]
  exact ⟨(claim8_idempotent_history_independent.1 staleResult (fun _ => none) 0 2).1, hmaps,
    claim8_idempotent_history_independent.2 staleResult (fun _ => none) _ _ hmaps⟩

/-- C10. The macro-percentage computation never divides by zero: whenever
the total macro calories `protein*4 + carbs*4 + fat*9` are zero, all three
percentages are defined and equal to 0. -/
theorem claim10_percent_zero_guard (n : NutritionInfo)
    (h : n.protein_g * 4 + n.carbs_g * 4 + n.fat_g * 9 = 0) :
    barPercents n = (0, 0, 0) := by
  simp only [barPercents, h]
  norm_num

/-- C10 witness. A nutrition record with zero macros (for example pure
fiber or water) produces all-zero percentages. -/
theorem claim10_percent_zero_witness :
    ((⟨5, 0, 0, 0, 0, 0, 0⟩ : NutritionInfo).protein_g * 4
        + (⟨5, 0, 0, 0, 0, 0, 0⟩ : NutritionInfo).carbs_g * 4
        + (⟨5, 0, 0, 0, 0, 0, 0⟩ : NutritionInfo).fat_g * 9 = 0)
    ∧ barPercents ⟨5, 0, 0, 0, 0, 0, 0⟩ = (0, 0, 0) :=
  ⟨by norm_num, claim10_percent_zero_guard ⟨5, 0, 0, 0, 0, 0, 0⟩ (by norm_num)⟩

/-- C5 counterexample. Setting the salad serving of the worked scenario to
0.25 drops the adjusted fiber to 2.75 and protein to 13, so re-deriving the
tips from the adjusted aggregate would yield two tips, but the component
keeps displaying the original empty tips list: tip generation is not
re-run by `setServing`. -/
theorem claim5_counterexample_tips_stale :
    genTips (adjustedNutrition staleResult.items
        (updateServing (initialAdjustments staleResult.items) 1 0.25))
      ≠ (clientView staleResult
          (updateServing (initialAdjustments staleResult.items) 1 0.25)).tips := by
  have htips : (clientView staleResult
      (updateServing (initialAdjustments staleResult.items) 1 0.25)).tips = [] := rfl
  have hadj : adjustedNutrition staleResult.items
      (updateServing (initialAdjustments staleResult.items) 1 0.25)
      = ⟨322.5, 13, 38.5, 12.5, 2.75, 4.5, 2.25⟩ := by
    simp only [staleResult, adjustedNutrition, updateServing, initialAdjustments,
      effectiveServing, clampServ, List.enum, List.enumFrom, List.foldl, List.get?,
      zeroTotals, NutritionInfo.mk.injEq]
    norm_num
  rw [hadj, htips]
  norm_num [genTips]
  simp

/-- C5 amended. `setServing(index, value)` silently clamps the value to
`[0.25, 5]`, writes the multiplier at that index leaving all others
unchanged, and the derived view synchronously re-runs nutrition aggregation
and health score calculation over all items; the tips, however, are not
re-derived: the view always shows the tips of the original result. -/
theorem claim5_set_serving_amended (result : AnalysisResult) (adj : ServingMap)
    (i : Nat) (v : ℚ) :
    ((0.25:ℚ) ≤ clampServ v ∧ clampServ v ≤ 5)
    ∧ updateServing adj i v i = some (clampServ v)
    ∧ (∀ j, j ≠ i → updateServing adj i v j = adj j)
    ∧ clientView result (updateServing adj i v)
        = ⟨adjustedNutrition result.items (updateServing adj i v),
           adjustedHealthScore result.items (updateServing adj i v), result.tips⟩ := by
  refine ⟨⟨le_max_left _ _, max_le (by norm_num) (min_le_left _ _)⟩, ?_, ?_, rfl⟩
  · simp [updateServing]
  · intro j hj
    simp [updateServing, hj]

/-- C5 witness. A concrete out-of-range edit (value 9 at index 0) is
clamped to 5, written at index 0 only, and the view re-derives nutrition
and score while keeping the original tips. -/
theorem claim5_set_serving_witness :
    ((0.25:ℚ) ≤ clampServ 9 ∧ clampServ 9 ≤ 5)
    ∧ updateServing (fun _ => none) 0 9 0 = some (clampServ 9)
    ∧ updateServing (fun _ => none) 0 9 1 = none
    ∧ clientView staleResult (updateServing (fun _ => none) 0 9)
        = ⟨adjustedNutrition staleResult.items (updateServing (fun _ => none) 0 9),
           adjustedHealthScore staleResult.items (updateServing (fun _ => none) 0 9),
           staleResult.tips⟩ :=
  ⟨(claim5_set_serving_amended staleResult (fun _ => none) 0 9).1,
   (claim5_set_serving_amended staleResult (fun _ => none) 0 9).2.1,
   (claim5_set_serving_amended staleResult (fun _ => none) 0 9).2.2.1 1 (by decide),
   (claim5_set_serving_amended staleResult (fun _ => none) 0 9).2.2.2⟩

/-- C6. Divergence between the server score and the client recompute: for a
single detected pizza the server returns `health_score = 100` (its
`health_score` function applies no caution penalty), while the client
recomputes 99 for the same items at their initial serving multipliers
(it subtracts the pizza penalty the design document prescribes). -/
theorem claim6_server_client_divergence :
    ∃ resp, analyze [⟨"pizza", 0.91⟩] = Except.ok resp
      ∧ resp.health_score = 100
      ∧ adjustedHealthScore resp.items (initialAdjustments resp.items) = 99 := by
  have hk : keptList [⟨"pizza", 0.91⟩] = [⟨"pizza", 0.91⟩] := by
    simp only [keptList, List.filter, decide_eq_true_eq]
    norm_num
  have hlo : lowerStr "pizza" = "pizza" := by decide
  have hl1 : lookup_nutrition "pizza" = ⟨285, 12, 36, 10, 2, 4, 2⟩ := by decide
  have hr1 : round3 0.91 = 0.91 := by norm_num [round3, pyRound]
  have hfull : analyze [⟨"pizza", 0.91⟩] = Except.ok ⟨285, 100,
      [⟨"pizza", 0.91, 1, ⟨285, 12, 36, 10, 2, 4, 2⟩⟩],
      ["Add veggies or whole grains to increase fiber.",
       "Add a lean protein for satiety."]⟩ := by
    simp only [analyze, hk, List.map, hlo, hr1, hl1, List.foldl, addTotals, zeroTotals,
      Except.ok.injEq, AnalysisResult.mk.injEq]
    norm_num [health_score, pyRound, genTips]
  refine ⟨_, hfull, rfl, ?_⟩
  have hadj : adjustedNutrition [⟨"pizza", 0.91, 1, ⟨285, 12, 36, 10, 2, 4, 2⟩⟩]
      (initialAdjustments [⟨"pizza", 0.91, 1, ⟨285, 12, 36, 10, 2, 4, 2⟩⟩])
      = ⟨285, 12, 36, 10, 2, 4, 2⟩ := by
    simp only [adjustedNutrition, initialAdjustments, effectiveServing, List.enum,
      List.enumFrom, List.foldl, List.get?, zeroTotals, NutritionInfo.mk.injEq]
    norm_num
  have hpen : cautionPenalty "pizza" = 3 := by decide
  have heff : effectiveServing
      (initialAdjustments [⟨"pizza", 0.91, 1, ⟨285, 12, 36, 10, 2, 4, 2⟩⟩])
      ⟨"pizza", 0.91, 1, ⟨285, 12, 36, 10, 2, 4, 2⟩⟩ 0 = 1 := by
    simp [effectiveServing, initialAdjustments]
  simp only [adjustedHealthScore, hadj, List.enum, List.enumFrom, List.foldl, hpen, heff]
  norm_num [jsRound]

/-- C7. The worked scenario: for predictions pizza 0.91, salad 0.55,
soda 0.2, the threshold 0.546 keeps exactly pizza and salad, and the
response has `total_calories = 435`, `health_score = 100`, two items, and
no tips. -/
theorem claim7_scenario_pizza_salad :
    keptList [⟨"pizza", 0.91⟩, ⟨"salad", 0.55⟩, ⟨"soda", 0.2⟩]
      = [⟨"pizza", 0.91⟩, ⟨"salad", 0.55⟩]
    ∧ ∃ resp,
        analyze [⟨"pizza", 0.91⟩, ⟨"salad", 0.55⟩, ⟨"soda", 0.2⟩] = Except.ok resp
        ∧ resp.total_calories = 435 ∧ resp.health_score = 100
        ∧ resp.items.length = 2 ∧ resp.tips = [] := by
  have hk : keptList [⟨"pizza", 0.91⟩, ⟨"salad", 0.55⟩, ⟨"soda", 0.2⟩]
      = [⟨"pizza", 0.91⟩, ⟨"salad", 0.55⟩] := by
    simp only [keptList, List.filter, decide_eq_true_eq]
    norm_num
  have hlo1 : lowerStr "pizza" = "pizza" := by decide
  have hlo2 : lowerStr "salad" = "salad" := by decide
  have hl1 : lookup_nutrition "pizza" = ⟨285, 12, 36, 10, 2, 4, 2⟩ := by decide
  have hl2 : lookup_nutrition "salad" = ⟨150, 4, 10, 10, 3, 2, 1⟩ := by decide
  have hr1 : round3 0.91 = 0.91 := by norm_num [round3, pyRound]
  have hr2 : round3 0.55 = 0.55 := by norm_num [round3, pyRound]
  have hfull : analyze [⟨"pizza", 0.91⟩, ⟨"salad", 0.55⟩, ⟨"soda", 0.2⟩]
      = Except.ok ⟨435, 100,
          [⟨"pizza", 0.91, 1, ⟨285, 12, 36, 10, 2, 4, 2⟩⟩,
           ⟨"salad", 0.55, 1, ⟨150, 4, 10, 10, 3, 2, 1⟩⟩], []⟩ := by
    simp only [analyze, hk, List.map, hlo1, hlo2, hr1, hr2, hl1, hl2, List.foldl,
      addTotals, zeroTotals, Except.ok.injEq, AnalysisResult.mk.injEq]
    norm_num [health_score, pyRound, genTips]
  exact ⟨hk, _, hfull, rfl, rfl, rfl, rfl⟩
